import Mathlib

/-
Verification of the filter/aggregate engine of the SpaceX launch-records
dashboard (`spacex_dash_app.py`).  The dataframe is embedded as a list of
records; the three Dash callbacks become pure functions over that list, the
module-level assignment of the derived `Payload Range` column being modelled
by explicit state passing.
-/

/-- One row of the `spacex_launch_dash.csv` dataframe, restricted to the
columns the callbacks read: `Launch Site`, `Payload Mass (kg)`, `class`
(1 = success, 0 = failure) and `Booster Version Category`. -/
structure LaunchRecord where
  launchSite : String
  payloadMass : ℚ
  cls : ℚ
  boosterVersionCategory : String
deriving DecidableEq

/-- A dataframe row together with the derived `Payload Range` column that
`update_insight_charts` assigns; `none` stands for "column not yet assigned"
or for pandas' NaN label. -/
structure Row where
  base : LaunchRecord
  payloadRange : Option String
deriving DecidableEq

/-- Distinct values of a list, in order of first appearance (the order in
which plotly meets pie-slice names; pandas `unique` behaves the same way). -/
def uniqueVals {α : Type} [DecidableEq α] : List α → List α
  | [] => []
  | x :: xs => x :: (uniqueVals xs).filter (fun y => decide (y ≠ x))

theorem mem_uniqueVals {α : Type} [DecidableEq α] (l : List α) (a : α) :
    a ∈ uniqueVals l ↔ a ∈ l := by
  induction l with
  | nil => simp [uniqueVals]
  | cons x xs ih =>
    simp only [uniqueVals, List.mem_cons, List.mem_filter, decide_eq_true_eq]
    rcases eq_or_ne a x with rfl | h <;> simp_all

theorem nodup_uniqueVals {α : Type} [DecidableEq α] (l : List α) :
    (uniqueVals l).Nodup := by
  induction l with
  | nil => simp [uniqueVals]
  | cons x xs ih =>
    simp only [uniqueVals, List.nodup_cons]
    refine ⟨?_, List.Nodup.filter _ ih⟩
    simp [List.mem_filter]

/-- Splitting a sum over a list along a boolean predicate. -/
theorem sum_map_filter_add {α M : Type} [AddCommMonoid M]
    (l : List α) (p : α → Bool) (f : α → M) :
    ((l.filter p).map f).sum + ((l.filter (fun a => ! p a)).map f).sum
      = (l.map f).sum := by
  induction l with
  | nil => simp
  | cons x xs ih =>
    cases hx : p x <;>
      simp only [List.filter_cons, hx, Bool.not_true, Bool.not_false,
        if_pos, if_neg, List.map_cons, List.sum_cons, Bool.false_eq_true,
        ite_true, ite_false]
    · rw [add_left_comm, ih]
    · rw [add_assoc, ih]

/-- Summing group totals over a duplicate-free list of keys that covers every
element recovers the total sum. -/
theorem sum_fibers {α κ M : Type} [DecidableEq κ] [AddCommMonoid M]
    (key : α → κ) (f : α → M) :
    ∀ (keys : List κ) (l : List α), keys.Nodup → (∀ a ∈ l, key a ∈ keys) →
      (keys.map (fun s => ((l.filter (fun a => decide (key a = s))).map f).sum)).sum
        = (l.map f).sum := by
  intro keys
  induction keys with
  | nil =>
    intro l _ hcov
    cases l with
    | nil => simp
    | cons a as => exact absurd (hcov a (by simp)) (by simp)
  | cons k ks ih =>
    intro l hnd hcov
    have hknotin : k ∉ ks := (List.nodup_cons.mp hnd).1
    have hcov2 : ∀ a ∈ l.filter (fun a => ! decide (key a = k)), key a ∈ ks := by
      intro a ha
      rw [List.mem_filter] at ha
      have hne : key a ≠ k := by
        have := ha.2
        simpa using this
      rcases List.mem_cons.mp (hcov a ha.1) with h | h
      · exact absurd h hne
      · exact h
    have hrec := ih (l.filter (fun a => ! decide (key a = k)))
      (List.nodup_cons.mp hnd).2 hcov2
    have hgroups : ks.map (fun s => ((l.filter (fun a => decide (key a = s))).map f).sum)
        = ks.map (fun s =>
            (((l.filter (fun a => ! decide (key a = k))).filter
              (fun a => decide (key a = s))).map f).sum) := by
      apply List.map_congr_left
      intro s hs
      have hsk : s ≠ k := fun hh => hknotin (hh ▸ hs)
      rw [List.filter_filter]
      have hfe : List.filter (fun a => decide (key a = s)) l
          = List.filter (fun a => decide (key a = s) && ! decide (key a = k)) l := by
        apply List.filter_congr
        intro a _
        by_cases hka : key a = s
        · simp [hka, hsk]
        · simp [hka]
      rw [hfe]
    rw [List.map_cons, List.sum_cons, hgroups, hrec]
    exact sum_map_filter_add l (fun a => decide (key a = k)) f

/-- Summing, over the distinct keys occurring in a list, the sums of the
corresponding groups recovers the total sum. -/
theorem sum_over_groups {α κ M : Type} [DecidableEq κ] [AddCommMonoid M]
    (key : α → κ) (f : α → M) (l : List α) :
    ((uniqueVals (l.map key)).map
        (fun s => ((l.filter (fun a => decide (key a = s))).map f).sum)).sum
      = (l.map f).sum :=
  sum_fibers key f (uniqueVals (l.map key)) l (nodup_uniqueVals _)
    (fun _ ha => (mem_uniqueVals _ _).mpr (List.mem_map_of_mem _ ha))

theorem sum_map_one {α : Type} (l : List α) :
    (l.map (fun _ => (1 : ℕ))).sum = l.length := by
  induction l with
  | nil => rfl
  | cons x xs ih => simp [ih]; omega

/-- Two successive filters may be applied in either order. -/
theorem filter_swap {α : Type} (l : List α) (p q : α → Bool) :
    (l.filter p).filter q = (l.filter q).filter p := by
  rw [List.filter_filter, List.filter_filter]
  exact List.filter_congr (fun _ _ => Bool.and_comm _ _)

/-- The three-launch scenario dataset used in the spec's test scenarios. -/
def sampleDf : List LaunchRecord :=
  [⟨"A", 1000, 1, "v1"⟩, ⟨"A", 6000, 0, "v1"⟩, ⟨"B", 3000, 1, "v2"⟩]

/-- The sample dataset as the module state, before any insight callback ran. -/
def sampleState : List Row := sampleDf.map (fun r => ⟨r, none⟩)

/-- `update_scatter_chart` (spacex_dash_app.py), row-selection part: keep the
rows with `low <= Payload Mass (kg) <= high`, then, when the selected site is
not `'ALL'`, keep only the rows of that site. -/
def update_scatter_chart (spacex_df : List LaunchRecord) (selected_site : String)
    (payload_range : ℚ × ℚ) : List LaunchRecord :=
  let low := payload_range.1
  let high := payload_range.2
  let filtered_df := spacex_df.filter
    (fun r => decide (low ≤ r.payloadMass) && decide (r.payloadMass ≤ high))
  if selected_site ≠ "ALL" then
    filtered_df.filter (fun r => decide (r.launchSite = selected_site))
  else filtered_df

/-- The points `px.scatter` draws: the (`Payload Mass (kg)`, `class`,
`Booster Version Category`) triple of each row kept by the filter. -/
def scatterPoints (spacex_df : List LaunchRecord) (selected_site : String)
    (payload_range : ℚ × ℚ) : List (ℚ × ℚ × String) :=
  (update_scatter_chart spacex_df selected_site payload_range).map
    (fun r => (r.payloadMass, r.cls, r.boosterVersionCategory))

/-- C1: the scatter query returns exactly the dataframe rows whose payload
mass lies in `[low, high]` (both endpoints included) and, when the selected
site is not the `'ALL'` sentinel, whose launch site is the selected one; the
result is a sublist of the dataframe, and the plotted points are the
(payload, outcome, booster category) triples of those rows, unmodified. -/
theorem update_scatter_chart_rows (spacex_df : List LaunchRecord)
    (selected_site : String) (low high : ℚ) :
    (∀ r : LaunchRecord,
      r ∈ update_scatter_chart spacex_df selected_site (low, high) ↔
        r ∈ spacex_df ∧ low ≤ r.payloadMass ∧ r.payloadMass ≤ high ∧
          (selected_site ≠ "ALL" → r.launchSite = selected_site))
    ∧ (update_scatter_chart spacex_df selected_site (low, high)).Sublist spacex_df
    ∧ scatterPoints spacex_df selected_site (low, high)
        = (update_scatter_chart spacex_df selected_site (low, high)).map
            (fun r => (r.payloadMass, r.cls, r.boosterVersionCategory)) := by
  refine ⟨?_, ?_, rfl⟩
  · intro r
    unfold update_scatter_chart
    by_cases hs : selected_site ≠ "ALL"
    · simp only [if_pos hs, List.mem_filter, Bool.and_eq_true, decide_eq_true_eq]
      constructor
      · rintro ⟨⟨hmem, h1, h2⟩, h3⟩
        exact ⟨hmem, h1, h2, fun _ => h3⟩
      · rintro ⟨hmem, h1, h2, h3⟩
        exact ⟨⟨hmem, h1, h2⟩, h3 hs⟩
    · simp only [if_neg hs, List.mem_filter, Bool.and_eq_true, decide_eq_true_eq]
      constructor
      · rintro ⟨hmem, h1, h2⟩
        exact ⟨hmem, h1, h2, fun hc => absurd hc hs⟩
      · rintro ⟨hmem, h1, h2, _⟩
        exact ⟨hmem, h1, h2⟩
  · unfold update_scatter_chart
    by_cases hs : selected_site ≠ "ALL"
    · simp only [if_pos hs]
      exact (List.filter_sublist _).trans (List.filter_sublist _)
    · simp only [if_neg hs]
      exact List.filter_sublist _

/-- C4: a payload range whose lower bound exceeds its upper bound yields an
empty row set, whatever the site selection. -/
theorem update_scatter_chart_empty_range (spacex_df : List LaunchRecord)
    (selected_site : String) (low high : ℚ) (h : high < low) :
    update_scatter_chart spacex_df selected_site (low, high) = [] := by
  unfold update_scatter_chart
  have hmask : spacex_df.filter
      (fun r => decide (low ≤ r.payloadMass) && decide (r.payloadMass ≤ high)) = [] := by
    rw [List.filter_eq_nil_iff]
    intro r _
    simp only [Bool.and_eq_true, decide_eq_true_eq, not_and]
    intro h1 h2
    exact absurd (h1.trans h2) (not_le.mpr h)
  simp [hmask]

/-- C4 applied to a concrete input: the inverted range `[5000, 3000]` on the
sample dataset returns no rows. -/
theorem update_scatter_chart_empty_range_w :
    (3000 : ℚ) < 5000 ∧ update_scatter_chart sampleDf "ALL" (5000, 3000) = [] :=
  ⟨by decide, update_scatter_chart_empty_range sampleDf "ALL" 5000 3000 (by decide)⟩

/-- C9: for a concrete (non-`'ALL'`) site selection the two row filters of the
scatter query commute: filtering by payload range and then by site equals
filtering by site and then by payload range. -/
theorem update_scatter_chart_filters_commute (spacex_df : List LaunchRecord)
    (selected_site : String) (low high : ℚ) (h : selected_site ≠ "ALL") :
    update_scatter_chart spacex_df selected_site (low, high)
      = (spacex_df.filter (fun r => decide (r.launchSite = selected_site))).filter
          (fun r => decide (low ≤ r.payloadMass) && decide (r.payloadMass ≤ high)) := by
  unfold update_scatter_chart
  simp only [if_pos h]
  exact filter_swap spacex_df _ _

/-- C9 applied to a concrete input: site `"A"`, range `[0, 10000]` on the
sample dataset. -/
theorem update_scatter_chart_filters_commute_w :
    ("A" : String) ≠ "ALL" ∧
    update_scatter_chart sampleDf "A" (0, 10000)
      = (sampleDf.filter (fun r => decide (r.launchSite = "A"))).filter
          (fun r => decide ((0:ℚ) ≤ r.payloadMass) && decide (r.payloadMass ≤ (10000:ℚ))) :=
  ⟨by decide, update_scatter_chart_filters_commute sampleDf "A" 0 10000 (by decide)⟩

/-- The `'ALL'` branch of `update_pie_chart`:
`px.pie(spacex_df, names='Launch Site', values='class')` draws one slice per
distinct site, whose value is the sum of the `class` column over that site's
rows. -/
def pieAllSlices (spacex_df : List LaunchRecord) : List (String × ℚ) :=
  (uniqueVals (spacex_df.map (·.launchSite))).map
    (fun s => (s, ((spacex_df.filter (fun r => decide (r.launchSite = s))).map (·.cls)).sum))

/-- The concrete-site branch of `update_pie_chart`: the rows are filtered to
the selected site and `px.pie(filtered_df, names='class')` draws one slice per
distinct `class` value, whose value is the number of rows carrying it. -/
def pieSiteSlices (spacex_df : List LaunchRecord) (selected_site : String) :
    List (ℚ × ℕ) :=
  let filtered_df := spacex_df.filter (fun r => decide (r.launchSite = selected_site))
  (uniqueVals (filtered_df.map (·.cls))).map
    (fun c => (c, (filtered_df.filter (fun r => decide (r.cls = c))).length))

/-- `update_pie_chart` (spacex_dash_app.py): dispatch between the two pie
charts on the `'ALL'` sentinel. -/
def update_pie_chart (spacex_df : List LaunchRecord) (selected_site : String) :
    List (String × ℚ) ⊕ List (ℚ × ℕ) :=
  if selected_site = "ALL" then Sum.inl (pieAllSlices spacex_df)
  else Sum.inr (pieSiteSlices spacex_df selected_site)

/-- A 0/1-valued list sums to the number of its entries equal to 1. -/
theorem sum_cls_eq_card (l : List LaunchRecord)
    (h : ∀ r ∈ l, r.cls = 0 ∨ r.cls = 1) :
    (l.map (·.cls)).sum = ((l.filter (fun r => decide (r.cls = 1))).length : ℚ) := by
  induction l with
  | nil => simp
  | cons r rs ih =>
    have ih2 := ih (fun d hd => h d (List.mem_cons_of_mem _ hd))
    rcases h r (by simp) with h0 | h1
    · have : (decide (r.cls = 1)) = false := by
        simp [h0]
      simp [List.filter_cons, this, h0, ih2]
    · have : (decide (r.cls = 1)) = true := by
        simp [h1]
      rw [List.map_cons, List.sum_cons, h1, ih2, List.filter_cons, if_pos this,
        List.length_cons]
      push_cast
      ring

/-- C3: the pie query's slice values are the true underlying counts: with
`'ALL'` selected, each slice is the number of class-1 rows of its site
(the sum of their 0/1 `class` values) and the slices sum to the total number
of class-1 rows; with a concrete site selected, each slice is the number of
that site's rows carrying its class value and the slices sum to the number of
the site's rows. -/
theorem update_pie_chart_counts (spacex_df : List LaunchRecord)
    (selected_site : String)
    (h : ∀ r ∈ spacex_df, r.cls = 0 ∨ r.cls = 1) :
    (selected_site = "ALL" →
      update_pie_chart spacex_df selected_site = Sum.inl (pieAllSlices spacex_df)
      ∧ (∀ p ∈ pieAllSlices spacex_df,
          p.2 = (((spacex_df.filter (fun r => decide (r.launchSite = p.1))).filter
            (fun r => decide (r.cls = 1))).length : ℚ))
      ∧ ((pieAllSlices spacex_df).map Prod.snd).sum
          = ((spacex_df.filter (fun r => decide (r.cls = 1))).length : ℚ))
    ∧ (selected_site ≠ "ALL" →
      update_pie_chart spacex_df selected_site
          = Sum.inr (pieSiteSlices spacex_df selected_site)
      ∧ (∀ p ∈ pieSiteSlices spacex_df selected_site,
          p.2 = ((spacex_df.filter (fun r => decide (r.launchSite = selected_site))).filter
            (fun r => decide (r.cls = p.1))).length)
      ∧ ((pieSiteSlices spacex_df selected_site).map Prod.snd).sum
          = (spacex_df.filter (fun r => decide (r.launchSite = selected_site))).length) := by
  constructor
  · intro hsel
    refine ⟨by unfold update_pie_chart; rw [if_pos hsel], ?_, ?_⟩
    · intro p hp
      unfold pieAllSlices at hp
      simp only [List.mem_map] at hp
      obtain ⟨s, _, rfl⟩ := hp
      exact sum_cls_eq_card _ (fun r hr => h r (List.mem_of_mem_filter hr))
    · unfold pieAllSlices
      rw [List.map_map]
      exact (sum_over_groups (fun r => r.launchSite) (fun r => r.cls) spacex_df).trans
        (sum_cls_eq_card spacex_df h)
  · intro hsel
    have hgen : ∀ l : List LaunchRecord,
        ((uniqueVals (l.map (·.cls))).map
          (fun c => (l.filter (fun r => decide (r.cls = c))).length)).sum = l.length := by
      intro l
      have hone : (uniqueVals (l.map (·.cls))).map
          (fun c => (l.filter (fun r => decide (r.cls = c))).length)
          = (uniqueVals (l.map (·.cls))).map
            (fun c => ((l.filter (fun r => decide (r.cls = c))).map (fun _ => (1:ℕ))).sum) := by
        apply List.map_congr_left
        intro c _
        rw [sum_map_one]
      rw [hone, sum_over_groups (fun r => r.cls) (fun _ => (1:ℕ)) l, sum_map_one]
    refine ⟨by unfold update_pie_chart; rw [if_neg hsel], ?_, ?_⟩
    · intro p hp
      unfold pieSiteSlices at hp
      simp only [List.mem_map] at hp
      obtain ⟨c, _, rfl⟩ := hp
      rfl
    · unfold pieSiteSlices
      rw [List.map_map]
      exact hgen _

/-- C3 applied to a concrete input: the sample dataset with site `"B"`
selected, where the outcome column is 0/1 valued. -/
theorem update_pie_chart_counts_w :
    (∀ r ∈ sampleDf, r.cls = 0 ∨ r.cls = 1) ∧
    ((("B" : String) = "ALL" →
      update_pie_chart sampleDf "B" = Sum.inl (pieAllSlices sampleDf)
      ∧ (∀ p ∈ pieAllSlices sampleDf,
          p.2 = (((sampleDf.filter (fun r => decide (r.launchSite = p.1))).filter
            (fun r => decide (r.cls = 1))).length : ℚ))
      ∧ ((pieAllSlices sampleDf).map Prod.snd).sum
          = ((sampleDf.filter (fun r => decide (r.cls = 1))).length : ℚ))
    ∧ (("B" : String) ≠ "ALL" →
      update_pie_chart sampleDf "B" = Sum.inr (pieSiteSlices sampleDf "B")
      ∧ (∀ p ∈ pieSiteSlices sampleDf "B",
          p.2 = ((sampleDf.filter (fun r => decide (r.launchSite = "B"))).filter
            (fun r => decide (r.cls = p.1))).length)
      ∧ ((pieSiteSlices sampleDf "B").map Prod.snd).sum
          = (sampleDf.filter (fun r => decide (r.launchSite = "B"))).length)) :=
  ⟨by decide, update_pie_chart_counts sampleDf "B" (by decide)⟩

/-- `pd.cut(spacex_df['Payload Mass (kg)'], bins=[0, 2500, 5000, 7500, 10000],
labels=['0-2500', '2500-5000', '5000-7500', '7500-10000'])`: with pandas'
defaults `right=True` and `include_lowest=False` the bins are the right-closed
intervals `(0,2500], (2500,5000], (5000,7500], (7500,10000]`; a value covered
by no bin — including a payload mass of exactly 0 — gets the null label
(`none`, pandas NaN). -/
def payloadBucket (x : ℚ) : Option String :=
  if 0 < x ∧ x ≤ 2500 then some "0-2500"
  else if 2500 < x ∧ x ≤ 5000 then some "2500-5000"
  else if 5000 < x ∧ x ≤ 7500 then some "5000-7500"
  else if 7500 < x ∧ x ≤ 10000 then some "7500-10000"
  else none

/-- The four bucket labels, in categorical order: pandas groups a categorical
column by all of its categories in this order, empty ones included. -/
def bucketLabels : List String := ["0-2500", "2500-5000", "5000-7500", "7500-10000"]

/-- Mean of a list of rationals; `none` on the empty list, where pandas
produces NaN. -/
def meanOpt (l : List ℚ) : Option ℚ :=
  if l.length = 0 then none else some (l.sum / l.length)

/-- The assignment `spacex_df['Payload Range'] = pd.cut(...)`: (re)compute the
derived `Payload Range` column from the `Payload Mass (kg)` column. -/
def assignPayloadRange (st : List Row) : List Row :=
  st.map (fun r => { r with payloadRange := payloadBucket r.base.payloadMass })

/-- Group keys as pandas `groupby` yields them: the distinct values of the
column, sorted.  (Key order is immaterial to every property stated below.) -/
def sortedKeys (l : List String) : List String :=
  (uniqueVals l).mergeSort (fun a b => decide (a ≤ b))

/-- The `site_success` table:
`spacex_df[spacex_df['class']==1].groupby('Launch Site')['class'].count()`. -/
def siteSuccessCounts (spacex_df : List LaunchRecord) : List (String × ℕ) :=
  let s := spacex_df.filter (fun r => decide (r.cls = 1))
  (sortedKeys (s.map (·.launchSite))).map
    (fun site => (site, (s.filter (fun r => decide (r.launchSite = site))).length))

/-- The `site_rate` table: `spacex_df.groupby('Launch Site')['class'].mean()`. -/
def siteSuccessRates (spacex_df : List LaunchRecord) : List (String × Option ℚ) :=
  (sortedKeys (spacex_df.map (·.launchSite))).map
    (fun site => (site,
      meanOpt ((spacex_df.filter (fun r => decide (r.launchSite = site))).map (·.cls))))

/-- The `payload_rate` table:
`spacex_df.groupby('Payload Range')['class'].mean()` over the categorical
bucket column: one group per category, an empty bucket's mean being NaN. -/
def payloadSuccessRates (st : List Row) : List (String × Option ℚ) :=
  bucketLabels.map
    (fun lab => (lab,
      meanOpt ((st.filter (fun r => decide (r.payloadRange = some lab))).map (·.base.cls))))

/-- The `booster_rate` table:
`spacex_df.groupby('Booster Version Category')['class'].mean()`. -/
def boosterSuccessRates (spacex_df : List LaunchRecord) : List (String × Option ℚ) :=
  (sortedKeys (spacex_df.map (·.boosterVersionCategory))).map
    (fun b => (b,
      meanOpt ((spacex_df.filter (fun r => decide (r.boosterVersionCategory = b))).map (·.cls))))

/-- The four tables `update_insight_charts` turns into bar charts. -/
structure InsightTables where
  site_success : List (String × ℕ)
  site_rate : List (String × Option ℚ)
  payload_rate : List (String × Option ℚ)
  booster_rate : List (String × Option ℚ)
deriving DecidableEq

/-- `update_insight_charts` (spacex_dash_app.py).  It receives the dropdown
value but never reads it, and it assigns the derived `Payload Range` column on
the module-level dataframe, modelled here by returning the updated dataframe
state alongside the four tables. -/
def update_insight_charts (st : List Row) (selected_site : String) :
    InsightTables × List Row :=
  let spacex_df := st.map (·.base)
  let st2 := assignPayloadRange st
  (⟨siteSuccessCounts spacex_df, siteSuccessRates spacex_df,
    payloadSuccessRates st2, boosterSuccessRates spacex_df⟩, st2)

/-- `update_pie_chart` as a Dash callback over the module state: it only reads
the dataframe. -/
def run_update_pie_chart (st : List Row) (selected_site : String) :
    (List (String × ℚ) ⊕ List (ℚ × ℕ)) × List Row :=
  (update_pie_chart (st.map (·.base)) selected_site, st)

/-- `update_scatter_chart` as a Dash callback over the module state: it only
reads the dataframe. -/
def run_update_scatter_chart (st : List Row) (selected_site : String)
    (payload_range : ℚ × ℚ) : List LaunchRecord × List Row :=
  (update_scatter_chart (st.map (·.base)) selected_site payload_range, st)

theorem mem_sortedKeys (l : List String) (s : String) :
    s ∈ sortedKeys l ↔ s ∈ l := by
  unfold sortedKeys
  exact ((List.mergeSort_perm _ _).mem_iff).trans (mem_uniqueVals l s)

/-- C2 counterexample: a payload mass of exactly 0 lies in `[0, 10000]`, yet
`pd.cut` — whose default `include_lowest=False` leaves the first interval open
on the left — assigns it no bucket label, so the first bucket does not
include 0 and a row at 0 falls into no bucket. -/
theorem payloadBucket_zero_unbinned :
    ((0 : ℚ) ≤ 0 ∧ (0 : ℚ) ≤ 10000) ∧ payloadBucket 0 = none := by
  decide

/-- C2 (amended): the binning is non-overlapping and exhaustive over the
half-open range `(0, 10000]`: a payload mass gets a bucket label exactly when
it lies in `(0, 10000]`, and each label stands for its right-closed,
left-open interval; a mass of exactly 0, like any mass outside the range,
gets the null label. -/
theorem payloadBucket_partition (x : ℚ) :
    ((payloadBucket x).isSome = true ↔ 0 < x ∧ x ≤ 10000)
    ∧ (payloadBucket x = some "0-2500" ↔ 0 < x ∧ x ≤ 2500)
    ∧ (payloadBucket x = some "2500-5000" ↔ 2500 < x ∧ x ≤ 5000)
    ∧ (payloadBucket x = some "5000-7500" ↔ 5000 < x ∧ x ≤ 7500)
    ∧ (payloadBucket x = some "7500-10000" ↔ 7500 < x ∧ x ≤ 10000) := by
  unfold payloadBucket
  split_ifs with h1 h2 h3 h4
  · refine ⟨iff_of_true rfl ⟨h1.1, by linarith [h1.2]⟩, iff_of_true rfl h1, ?_, ?_, ?_⟩
    · exact iff_of_false (by decide) (fun hc => absurd h1.2 (not_le.mpr hc.1))
    · exact iff_of_false (by decide) (fun hc => absurd h1.2 (not_le.mpr (by linarith [hc.1])))
    · exact iff_of_false (by decide) (fun hc => absurd h1.2 (not_le.mpr (by linarith [hc.1])))
  · refine ⟨iff_of_true rfl ⟨by linarith [h2.1], by linarith [h2.2]⟩,
      iff_of_false (by decide) h1, iff_of_true rfl h2, ?_, ?_⟩
    · exact iff_of_false (by decide) (fun hc => absurd h2.2 (not_le.mpr hc.1))
    · exact iff_of_false (by decide) (fun hc => absurd h2.2 (not_le.mpr (by linarith [hc.1])))
  · refine ⟨iff_of_true rfl ⟨by linarith [h3.1], by linarith [h3.2]⟩,
      iff_of_false (by decide) h1, iff_of_false (by decide) h2, iff_of_true rfl h3, ?_⟩
    · exact iff_of_false (by decide) (fun hc => absurd h3.2 (not_le.mpr hc.1))
  · exact ⟨iff_of_true rfl ⟨by linarith [h4.1], h4.2⟩,
      iff_of_false (by decide) h1, iff_of_false (by decide) h2,
      iff_of_false (by decide) h3, iff_of_true rfl h4⟩
  · refine ⟨?_, iff_of_false (by decide) h1, iff_of_false (by decide) h2,
      iff_of_false (by decide) h3, iff_of_false (by decide) h4⟩
    refine iff_of_false (by decide) ?_
    rintro ⟨hpos, hle⟩
    have c1 : 2500 < x := lt_of_not_le (fun hx => h1 ⟨hpos, hx⟩)
    have c2 : 5000 < x := lt_of_not_le (fun hx => h2 ⟨c1, hx⟩)
    have c3 : 7500 < x := lt_of_not_le (fun hx => h3 ⟨c2, hx⟩)
    have c4 : 10000 < x := lt_of_not_le (fun hx => h4 ⟨c3, hx⟩)
    linarith

/-- Base columns are untouched by the bucket-column assignment. -/
theorem base_assignPayloadRange (st : List Row) :
    (assignPayloadRange st).map (·.base) = st.map (·.base) := by
  unfold assignPayloadRange
  rw [List.map_map]
  rfl

/-- The bucket-column assignment is a function of the base columns alone. -/
theorem assignPayloadRange_eq (st : List Row) :
    assignPayloadRange st
      = (st.map (·.base)).map (fun b => ⟨b, payloadBucket b.payloadMass⟩) := by
  unfold assignPayloadRange
  rw [List.map_map]
  rfl

/-- C5: no callback modifies an existing row or column of the dataframe: the
pie and scatter callbacks return the state unchanged, and the insight callback
changes nothing but the derived `Payload Range` column, which it sets to a
pure function of the existing `Payload Mass (kg)` column. -/
theorem callbacks_frame_effect (st : List Row) (selected_site : String)
    (payload_range : ℚ × ℚ) :
    (run_update_pie_chart st selected_site).2 = st
    ∧ (run_update_scatter_chart st selected_site payload_range).2 = st
    ∧ ((update_insight_charts st selected_site).2).map (·.base) = st.map (·.base)
    ∧ (∀ r ∈ (update_insight_charts st selected_site).2,
        r.payloadRange = payloadBucket r.base.payloadMass) := by
  refine ⟨rfl, rfl, base_assignPayloadRange st, ?_⟩
  intro r hr
  have hr2 : r ∈ assignPayloadRange st := hr
  unfold assignPayloadRange at hr2
  obtain ⟨a, _, rfl⟩ := List.mem_map.mp hr2
  rfl

/-- C6: the insight tables ignore the site selection — any two selections give
identical results — and the site tables are computed over the full dataframe:
`site_success` pairs each site with the number of its class-1 rows,
`site_rate` pairs each site with the mean of its rows' `class` column, and a
site occurs in `site_success` exactly when it has a class-1 row. -/
theorem update_insight_charts_selection_independent (st : List Row)
    (sel sel' : String) :
    update_insight_charts st sel = update_insight_charts st sel'
    ∧ (∀ p ∈ (update_insight_charts st sel).1.site_success,
        p.2 = (((st.map (·.base)).filter (fun r => decide (r.launchSite = p.1))).filter
          (fun r => decide (r.cls = 1))).length)
    ∧ (∀ p ∈ (update_insight_charts st sel).1.site_rate,
        p.2 = meanOpt (((st.map (·.base)).filter
          (fun r => decide (r.launchSite = p.1))).map (·.cls)))
    ∧ (∀ s : String,
        s ∈ ((update_insight_charts st sel).1.site_success.map Prod.fst) ↔
          ∃ r ∈ st.map (·.base), r.cls = 1 ∧ r.launchSite = s) := by
  refine ⟨rfl, ?_, ?_, ?_⟩
  · intro p hp
    have hp2 : p ∈ siteSuccessCounts (st.map (·.base)) := hp
    unfold siteSuccessCounts at hp2
    obtain ⟨site, _, rfl⟩ := List.mem_map.mp hp2
    exact congrArg List.length (filter_swap (st.map (·.base)) _ _)
  · intro p hp
    have hp2 : p ∈ siteSuccessRates (st.map (·.base)) := hp
    unfold siteSuccessRates at hp2
    obtain ⟨site, _, rfl⟩ := List.mem_map.mp hp2
    rfl
  · intro s
    have htab : (update_insight_charts st sel).1.site_success.map Prod.fst
        = sortedKeys (((st.map (·.base)).filter
            (fun r => decide (r.cls = 1))).map (·.launchSite)) := by
      show (siteSuccessCounts (st.map (·.base))).map Prod.fst = _
      unfold siteSuccessCounts
      rw [List.map_map]
      exact List.map_id _
    rw [htab, mem_sortedKeys]
    simp only [List.mem_map, List.mem_filter, decide_eq_true_eq]
    constructor
    · rintro ⟨r, ⟨hr, hc⟩, rfl⟩
      exact ⟨r, hr, hc, rfl⟩
    · rintro ⟨r, hr, hc, rfl⟩
      exact ⟨r, ⟨hr, hc⟩, rfl⟩

/-- The mean of a list of 0/1 values, when defined, lies in `[0, 1]`. -/
theorem meanOpt_mem_unit (l : List ℚ) (h : ∀ c ∈ l, c = 0 ∨ c = 1) :
    ∀ v, meanOpt l = some v → 0 ≤ v ∧ v ≤ 1 := by
  intro v hv
  unfold meanOpt at hv
  split_ifs at hv with hl
  have hlen : 0 < (l.length : ℚ) := by
    have hp : 0 < l.length := Nat.pos_of_ne_zero hl
    exact_mod_cast hp
  obtain rfl : v = l.sum / (l.length : ℚ) := (Option.some_inj.mp hv).symm
  constructor
  · apply div_nonneg _ hlen.le
    apply List.sum_nonneg
    intro c hc
    rcases h c hc with rfl | rfl <;> norm_num
  · rw [div_le_one hlen]
    have hb := List.sum_le_card_nsmul l 1
      (fun c hc => by rcases h c hc with rfl | rfl <;> norm_num)
    simpa using hb

/-- C7: with a 0/1-valued outcome column, every defined group mean in the
three success-rate tables — per site, per payload bucket, per booster
category — lies within `[0, 1]`. -/
theorem insight_rates_unit_interval (st : List Row) (sel : String)
    (h : ∀ r ∈ st, r.base.cls = 0 ∨ r.base.cls = 1) :
    (∀ p ∈ (update_insight_charts st sel).1.site_rate,
        ∀ v, p.2 = some v → 0 ≤ v ∧ v ≤ 1)
    ∧ (∀ p ∈ (update_insight_charts st sel).1.payload_rate,
        ∀ v, p.2 = some v → 0 ≤ v ∧ v ≤ 1)
    ∧ (∀ p ∈ (update_insight_charts st sel).1.booster_rate,
        ∀ v, p.2 = some v → 0 ≤ v ∧ v ≤ 1) := by
  have hbase : ∀ r ∈ st.map (·.base), r.cls = 0 ∨ r.cls = 1 := by
    intro r hr
    obtain ⟨a, ha, rfl⟩ := List.mem_map.mp hr
    exact h a ha
  refine ⟨?_, ?_, ?_⟩
  · intro p hp
    have hp2 : p ∈ siteSuccessRates (st.map (·.base)) := hp
    unfold siteSuccessRates at hp2
    obtain ⟨site, _, rfl⟩ := List.mem_map.mp hp2
    apply meanOpt_mem_unit
    intro c hc
    obtain ⟨r, hr, rfl⟩ := List.mem_map.mp hc
    exact hbase r (List.mem_of_mem_filter hr)
  · intro p hp
    have hp2 : p ∈ payloadSuccessRates (assignPayloadRange st) := hp
    unfold payloadSuccessRates at hp2
    obtain ⟨lab, _, rfl⟩ := List.mem_map.mp hp2
    apply meanOpt_mem_unit
    intro c hc
    obtain ⟨r, hr, rfl⟩ := List.mem_map.mp hc
    have hr2 : r ∈ assignPayloadRange st := List.mem_of_mem_filter hr
    unfold assignPayloadRange at hr2
    obtain ⟨a, ha, rfl⟩ := List.mem_map.mp hr2
    exact h a ha
  · intro p hp
    have hp2 : p ∈ boosterSuccessRates (st.map (·.base)) := hp
    unfold boosterSuccessRates at hp2
    obtain ⟨b, _, rfl⟩ := List.mem_map.mp hp2
    apply meanOpt_mem_unit
    intro c hc
    obtain ⟨r, hr, rfl⟩ := List.mem_map.mp hc
    exact hbase r (List.mem_of_mem_filter hr)

/-- C7 applied to a concrete input: the sample dataset (whose outcome column
is 0/1 valued), any selection. -/
theorem insight_rates_unit_interval_w :
    (∀ r ∈ sampleState, r.base.cls = 0 ∨ r.base.cls = 1) ∧
    ((∀ p ∈ (update_insight_charts sampleState "ALL").1.site_rate,
        ∀ v, p.2 = some v → 0 ≤ v ∧ v ≤ 1)
    ∧ (∀ p ∈ (update_insight_charts sampleState "ALL").1.payload_rate,
        ∀ v, p.2 = some v → 0 ≤ v ∧ v ≤ 1)
    ∧ (∀ p ∈ (update_insight_charts sampleState "ALL").1.booster_rate,
        ∀ v, p.2 = some v → 0 ≤ v ∧ v ≤ 1)) :=
  ⟨by decide, insight_rates_unit_interval sampleState "ALL" (by decide)⟩

/-- The insight tables are a function of the base columns alone. -/
theorem insight_tables_congr (st1 st2 : List Row) (sel : String)
    (h : st1.map (·.base) = st2.map (·.base)) :
    (update_insight_charts st1 sel).1 = (update_insight_charts st2 sel).1 := by
  have e1 : assignPayloadRange st1 = assignPayloadRange st2 := by
    rw [assignPayloadRange_eq, assignPayloadRange_eq, h]
  show InsightTables.mk (siteSuccessCounts (st1.map (·.base)))
      (siteSuccessRates (st1.map (·.base)))
      (payloadSuccessRates (assignPayloadRange st1))
      (boosterSuccessRates (st1.map (·.base)))
      = InsightTables.mk (siteSuccessCounts (st2.map (·.base)))
      (siteSuccessRates (st2.map (·.base)))
      (payloadSuccessRates (assignPayloadRange st2))
      (boosterSuccessRates (st2.map (·.base)))
  rw [h, e1]

/-- C8: every derived view is a pure, deterministic function of the dataframe
contents and the selection state: two states carrying the same row data yield
identical outputs for all three callbacks, and re-running the insight callback
on its own output state reproduces the same tables — no hidden state survives
a recomputation. -/
theorem views_deterministic (st1 st2 : List Row) (sel : String)
    (payload_range : ℚ × ℚ) (h : st1.map (·.base) = st2.map (·.base)) :
    (run_update_pie_chart st1 sel).1 = (run_update_pie_chart st2 sel).1
    ∧ (run_update_scatter_chart st1 sel payload_range).1
        = (run_update_scatter_chart st2 sel payload_range).1
    ∧ (update_insight_charts st1 sel).1 = (update_insight_charts st2 sel).1
    ∧ (update_insight_charts (update_insight_charts st1 sel).2 sel).1
        = (update_insight_charts st1 sel).1 := by
  refine ⟨?_, ?_, insight_tables_congr st1 st2 sel h, ?_⟩
  · show update_pie_chart (st1.map (·.base)) sel
        = update_pie_chart (st2.map (·.base)) sel
    rw [h]
  · show update_scatter_chart (st1.map (·.base)) sel payload_range
        = update_scatter_chart (st2.map (·.base)) sel payload_range
    rw [h]
  · exact insight_tables_congr _ st1 sel (base_assignPayloadRange st1)

/-- C8 applied to a concrete input: the sample state with selection `"ALL"`
and range `[0, 10000]`. -/
theorem views_deterministic_w :
    sampleState.map (·.base) = sampleState.map (·.base) ∧
    ((run_update_pie_chart sampleState "ALL").1
        = (run_update_pie_chart sampleState "ALL").1
    ∧ (run_update_scatter_chart sampleState "ALL" (0, 10000)).1
        = (run_update_scatter_chart sampleState "ALL" (0, 10000)).1
    ∧ (update_insight_charts sampleState "ALL").1
        = (update_insight_charts sampleState "ALL").1
    ∧ (update_insight_charts (update_insight_charts sampleState "ALL").2 "ALL").1
        = (update_insight_charts sampleState "ALL").1) :=
  ⟨rfl, views_deterministic sampleState sampleState "ALL" (0, 10000) rfl⟩

/-- C10: the insight callback is idempotent on the module state: a second run
recomputes the bucket column from the unchanged payload column and reproduces
the state — and the tables — of the first run exactly. -/
theorem update_insight_charts_idempotent (st : List Row) (sel : String) :
    update_insight_charts ((update_insight_charts st sel).2) sel
      = update_insight_charts st sel := by
  have hstate : assignPayloadRange (assignPayloadRange st) = assignPayloadRange st := by
    rw [assignPayloadRange_eq (assignPayloadRange st), base_assignPayloadRange,
      ← assignPayloadRange_eq]
  have htab := insight_tables_congr (assignPayloadRange st) st sel
    (base_assignPayloadRange st)
  have h2 : (update_insight_charts ((update_insight_charts st sel).2) sel).2
      = (update_insight_charts st sel).2 := hstate
  exact Prod.ext htab h2
